import Mathlib

/-
Verification development for the jarvis-alpha-innotec-planner repository.

The Rust source in `src/websocket_client.rs` is embedded shallowly:

* timestamps (chrono `DateTime<Utc>`) are integers counting seconds;
  `chrono::Duration::num_hours` truncates toward zero, which is `Int.tdiv`;
* `f64` prices and temperatures are modelled as rationals (`Rat`);
* the websocket side effects are modelled by the sequence of protocol
  commands / UI gestures a routine emits, and fallible steps of the
  orchestrating `plan` function are driven by explicit outcome flags;
* the thread rng draw of `add_jitter_to_spot_prices` is an explicit
  parameter, with the `gen_range(0..2*max)` contract as a hypothesis.
-/

namespace AlphaInnotec

/-- `jarvis_lib::model::SpotPrice` as consumed by `websocket_client.rs`
(`id`/`source` are never read by the planner logic and are omitted).
`fromTime` embeds the Rust field `from` (a Lean keyword). Timestamps are in
seconds, prices in EUR/kWh as rationals. -/
structure SpotPrice where
  fromTime : Int
  till : Int
  market_price : Rat
  market_price_tax : Rat
  sourcing_markup_price : Rat
  energy_tax_price : Rat
deriving Repr, DecidableEq

/-- Modelled from the spec: `PlanningResponse::total_price` lives in the
external `jarvis_lib` crate (the repository only calls it); per §3 of the
spec "a total price is a caller-selectable sum over chosen components
across all entries in the window". -/
def total_price (component : SpotPrice → Rat) (spot_prices : List SpotPrice) : Rat :=
  (spot_prices.map component).sum

/-- The four-component total the code selects for the below-zero check
(`market_price + market_price_tax + sourcing_markup_price + energy_tax_price`). -/
def four_component_total (spot_prices : List SpotPrice) : Rat :=
  total_price
    (fun sp => sp.market_price + sp.market_price_tax + sp.sourcing_markup_price
      + sp.energy_tax_price) spot_prices

/-- Market-price-only total used in the ramp comparison. -/
def market_total (spot_prices : List SpotPrice) : Rat :=
  total_price (fun sp => sp.market_price) spot_prices

/-- Error raised by `is_desinfection_desired` on an invalid configuration. -/
inductive DesinfectionError
  | invalidConfig
deriving Repr, DecidableEq

/-- Truncating division by 3600 seconds: `chrono::Duration::num_hours`
(whole hours, rounding toward zero). -/
def num_hours (seconds : Int) : Int := Int.tdiv seconds 3600

/-- Embedding of `is_desinfection_desired` (websocket_client.rs:903-972).
`lowest`/`highest` are the spot-price lists of the two `PlanningResponse`s. -/
def is_desinfection_desired (min_hours_since_last_desinfection : Int)
    (max_hours_since_last_desinfection : Int)
    (desinfection_finished_at : Int)
    (lowest highest : List SpotPrice) : Except DesinfectionError Bool :=
  if max_hours_since_last_desinfection ≤ min_hours_since_last_desinfection then
    .error .invalidConfig
  else
    match lowest.getLast? with
    | none => .ok false
    | some lastSp =>
      let planned_finished_at := lastSp.till
      let hours_since_last_desinfection :=
        num_hours (planned_finished_at - desinfection_finished_at)
      let lowest_total_price := four_component_total lowest
      if lowest_total_price ≤ 0 then .ok true
      else if hours_since_last_desinfection < min_hours_since_last_desinfection then .ok false
      else if hours_since_last_desinfection > max_hours_since_last_desinfection then .ok true
      else
        let hours_since_min :=
          hours_since_last_desinfection - min_hours_since_last_desinfection
        let hours_between_min_and_max :=
          max_hours_since_last_desinfection - min_hours_since_last_desinfection
        let fraction_of_max_price : Rat :=
          ((hours_since_min * hours_since_min : Int) : Rat)
            / ((hours_between_min_and_max * hours_between_min_and_max : Int) : Rat)
        let highest_total_price := market_total highest
        let lowest_total_price := market_total lowest
        .ok (decide (lowest_total_price < fraction_of_max_price * highest_total_price))

/-- Reference definition written from the spec's words (§4.5), for the C1
refinement comparison: the ramp threshold is stated there as
`t = (elapsed − min) / (max − min)` and `threshold_fraction = t²`. -/
def is_desinfection_desired_spec (min_hours max_hours : Int)
    (last_finished_at : Int) (lowest highest : List SpotPrice) :
    Except DesinfectionError Bool :=
  if max_hours ≤ min_hours then .error .invalidConfig
  else
    match lowest.getLast? with
    | none => .ok false
    | some lastSp =>
      let elapsed := num_hours (lastSp.till - last_finished_at)
      if four_component_total lowest ≤ 0 then .ok true
      else if elapsed < min_hours then .ok false
      else if elapsed > max_hours then .ok true
      else
        let t : Rat := ((elapsed - min_hours : Int) : Rat) / ((max_hours - min_hours : Int) : Rat)
        .ok (decide (market_total lowest < t ^ 2 * market_total highest))

theorem ramp_fraction_eq (h d : Int) :
    ((h * h : Int) : Rat) / ((d * d : Int) : Rat)
      = (((h : Int) : Rat) / ((d : Int) : Rat)) ^ 2 := by
  push_cast
  rw [div_pow]
  ring_nf

/-- Claim C1: `is_desinfection_desired` agrees with the spec's reference
definition on every input: it fails with `InvalidConfig` exactly when
`max_hours ≤ min_hours`; given `max_hours > min_hours` it returns `false`
for an empty lowest window; with `elapsed` the whole hours from
`last_finished_at` to the lowest window's last `till`, it returns `true`
when the four-component total of the lowest window is `≤ 0`, else `false`
when `elapsed < min_hours`, else `true` when `elapsed > max_hours`, else
the truth of `Σmarket(lowest) < ((elapsed−min)/(max−min))² * Σmarket(highest)`. -/
theorem is_desinfection_desired_follows_spec (min_hours max_hours : Int)
    (last_finished_at : Int) (lowest highest : List SpotPrice) :
    is_desinfection_desired min_hours max_hours last_finished_at lowest highest
      = is_desinfection_desired_spec min_hours max_hours last_finished_at lowest highest := by
  unfold is_desinfection_desired is_desinfection_desired_spec
  by_cases hcfg : max_hours ≤ min_hours
  · simp [hcfg]
  · simp only [hcfg, if_false]
    cases hlast : lowest.getLast? with
    | none => rfl
    | some lastSp =>
      simp only
      by_cases hlow : four_component_total lowest ≤ 0
      · simp [hlow]
      · simp only [hlow, if_false]
        by_cases hmin : num_hours (lastSp.till - last_finished_at) < min_hours
        · simp [hmin]
        · simp only [hmin, if_false]
          by_cases hmax : num_hours (lastSp.till - last_finished_at) > max_hours
          · simp [hmax]
          · simp only [hmax, if_false, Except.ok.injEq, decide_eq_decide]
            rw [ramp_fraction_eq]

/-- The quadratic ramp fraction of the ramp branch of
`is_desinfection_desired`: `hours_since_min² / hours_between_min_and_max²`,
both squares computed on integers and then divided. -/
def ramp_fraction (min_hours max_hours elapsed : Int) : Rat :=
  (((elapsed - min_hours) * (elapsed - min_hours) : Int) : Rat)
    / (((max_hours - min_hours) * (max_hours - min_hours) : Int) : Rat)

theorem ramp_fraction_lt_ramp_fraction (min_h max_h e₁ e₂ : Int)
    (hcfg : min_h < max_h) (h1 : min_h ≤ e₁) (h12 : e₁ < e₂) :
    ramp_fraction min_h max_h e₁ < ramp_fraction min_h max_h e₂ := by
  unfold ramp_fraction
  have hd : (0 : Rat) < (((max_h - min_h) * (max_h - min_h) : Int) : Rat) := by
    have h : (0 : Int) < (max_h - min_h) * (max_h - min_h) :=
      mul_pos (by omega) (by omega)
    exact_mod_cast h
  have hnum : (((e₁ - min_h) * (e₁ - min_h) : Int) : Rat)
      < (((e₂ - min_h) * (e₂ - min_h) : Int) : Rat) := by
    have h : (e₁ - min_h) * (e₁ - min_h) < (e₂ - min_h) * (e₂ - min_h) := by nlinarith
    exact_mod_cast h
  rw [div_eq_mul_inv, div_eq_mul_inv]
  exact mul_lt_mul_of_pos_right hnum (inv_pos.mpr hd)

theorem ramp_fraction_le_ramp_fraction (min_h max_h e₁ e₂ : Int)
    (h1 : min_h ≤ e₁) (h12 : e₁ ≤ e₂) :
    ramp_fraction min_h max_h e₁ ≤ ramp_fraction min_h max_h e₂ := by
  unfold ramp_fraction
  have hd : (0 : Rat) ≤ (((max_h - min_h) * (max_h - min_h) : Int) : Rat) := by
    have h : (0 : Int) ≤ (max_h - min_h) * (max_h - min_h) := mul_self_nonneg _
    exact_mod_cast h
  have hnum : (((e₁ - min_h) * (e₁ - min_h) : Int) : Rat)
      ≤ (((e₂ - min_h) * (e₂ - min_h) : Int) : Rat) := by
    have h : (e₁ - min_h) * (e₁ - min_h) ≤ (e₂ - min_h) * (e₂ - min_h) := by nlinarith
    exact_mod_cast h
  rw [div_eq_mul_inv, div_eq_mul_inv]
  exact mul_le_mul_of_nonneg_right hnum (inv_nonneg.mpr hd)

theorem ramp_fraction_at_max (min_h max_h : Int) (hcfg : min_h < max_h) :
    ramp_fraction min_h max_h max_h = 1 := by
  unfold ramp_fraction
  apply div_self
  have h : (max_h - min_h) * (max_h - min_h) ≠ 0 :=
    mul_ne_zero (by omega) (by omega)
  exact_mod_cast h

/-- In the ramp region with a positive four-component lowest total,
`is_desinfection_desired` reduces to the elapsed-hours case split. -/
theorem is_desinfection_desired_ramp_region_eq (min_h max_h fin : Int)
    (lowest highest : List SpotPrice) (lastSp : SpotPrice)
    (hcfg : min_h < max_h) (hlast : lowest.getLast? = some lastSp)
    (hpos : 0 < four_component_total lowest) :
    is_desinfection_desired min_h max_h fin lowest highest =
      (if num_hours (lastSp.till - fin) < min_h then .ok false
       else if num_hours (lastSp.till - fin) > max_h then .ok true
       else .ok (decide (market_total lowest <
         ramp_fraction min_h max_h (num_hours (lastSp.till - fin)) * market_total highest))) := by
  unfold is_desinfection_desired
  rw [if_neg (not_le.mpr hcfg), hlast]
  simp only [if_neg (not_le.mpr hpos)]
  rfl

/-- Claim C5 (amended): in the ramp region (non-empty lowest window with
positive four-component total, `min_hours ≤ elapsed ≤ max_hours`), the
threshold fraction strictly increases with elapsed; for windows whose
highest-market sum is nonnegative the outcome is monotone in elapsed;
disinfection is forced for `elapsed > max_hours`, while at
`elapsed = max_hours` the result equals the truth of
`Σmarket(lowest) < Σmarket(highest)` (not unconditionally forced); and the
result is never `true` for `elapsed < min_hours` absent the below-zero
override. -/
theorem desinfection_ramp_monotone (min_h max_h fin₁ fin₂ : Int)
    (lowest highest : List SpotPrice) (lastSp : SpotPrice)
    (hcfg : min_h < max_h) (hlast : lowest.getLast? = some lastSp)
    (hpos : 0 < four_component_total lowest) :
    (min_h ≤ num_hours (lastSp.till - fin₁) →
      num_hours (lastSp.till - fin₁) < num_hours (lastSp.till - fin₂) →
      ramp_fraction min_h max_h (num_hours (lastSp.till - fin₁))
        < ramp_fraction min_h max_h (num_hours (lastSp.till - fin₂)))
  ∧ (0 ≤ market_total highest →
      min_h ≤ num_hours (lastSp.till - fin₁) →
      num_hours (lastSp.till - fin₁) ≤ num_hours (lastSp.till - fin₂) →
      num_hours (lastSp.till - fin₂) ≤ max_h →
      is_desinfection_desired min_h max_h fin₁ lowest highest = .ok true →
      is_desinfection_desired min_h max_h fin₂ lowest highest = .ok true)
  ∧ (max_h < num_hours (lastSp.till - fin₁) →
      is_desinfection_desired min_h max_h fin₁ lowest highest = .ok true)
  ∧ (num_hours (lastSp.till - fin₁) < min_h →
      is_desinfection_desired min_h max_h fin₁ lowest highest = .ok false)
  ∧ (num_hours (lastSp.till - fin₁) = max_h →
      is_desinfection_desired min_h max_h fin₁ lowest highest
        = .ok (decide (market_total lowest < market_total highest))) := by
  set e₁ := num_hours (lastSp.till - fin₁) with he₁
  set e₂ := num_hours (lastSp.till - fin₂) with he₂
  have heq₁ := is_desinfection_desired_ramp_region_eq min_h max_h fin₁ lowest highest lastSp
    hcfg hlast hpos
  have heq₂ := is_desinfection_desired_ramp_region_eq min_h max_h fin₂ lowest highest lastSp
    hcfg hlast hpos
  refine ⟨?_, ?_, ?_, ?_, ?_⟩
  · intro h1 h12
    exact ramp_fraction_lt_ramp_fraction min_h max_h e₁ e₂ hcfg h1 h12
  · intro hHm h1 h12 h2 htrue
    rw [heq₁] at htrue
    rw [if_neg (by omega), if_neg (by omega)] at htrue
    have hlt : market_total lowest < ramp_fraction min_h max_h e₁ * market_total highest := by
      have hb := Except.ok.inj htrue
      exact of_decide_eq_true hb
    rw [heq₂, if_neg (by omega), if_neg (by omega)]
    have hle : ramp_fraction min_h max_h e₁ * market_total highest
        ≤ ramp_fraction min_h max_h e₂ * market_total highest :=
      mul_le_mul_of_nonneg_right
        (ramp_fraction_le_ramp_fraction min_h max_h e₁ e₂ h1 h12) hHm
    have h : market_total lowest < ramp_fraction min_h max_h e₂ * market_total highest :=
      lt_of_lt_of_le hlt hle
    rw [decide_eq_true h]
  · intro hgt
    rw [heq₁, if_neg (by omega), if_pos (by omega)]
  · intro hlt
    rw [heq₁, if_pos hlt]
  · intro hmax
    rw [heq₁, if_neg (by omega), if_neg (by omega), ← he₁, hmax,
      ramp_fraction_at_max min_h max_h hcfg, one_mul]

/-- The claim as frozen is false on the code: at `elapsed = max_hours`
disinfection is not forced. With `min_hours = 24`, `max_hours = 48`,
`last_finished_at = 0` and a one-entry window ending at `till = 172800`
(elapsed exactly 48 hours) whose market sums are equal and positive, the
ramp comparison is `1 < 1` and the function returns `false`. -/
theorem desinfection_not_forced_at_max_counterexample :
    is_desinfection_desired 24 48 0
        [⟨169200, 172800, 1, 0, 0, 0⟩] [⟨169200, 172800, 1, 0, 0, 0⟩]
      = .ok false
    ∧ num_hours ((172800 : Int) - 0) = 48 := by
  constructor
  · unfold is_desinfection_desired
    have ht : Int.tdiv (172800 : Int) 3600 = 48 := by decide
    norm_num [num_hours, four_component_total, market_total, total_price, List.getLast?, ht]
  · decide

theorem desinfection_ramp_monotone_witness :
    is_desinfection_desired 24 48 0
        [⟨248400, 252000, 1, 0, 0, 0⟩] [⟨248400, 252000, 1, 0, 0, 0⟩]
      = .ok true := by
  have h := desinfection_ramp_monotone 24 48 0 0
    [⟨248400, 252000, 1, 0, 0, 0⟩] [⟨248400, 252000, 1, 0, 0, 0⟩]
    ⟨248400, 252000, 1, 0, 0, 0⟩
    (by norm_num) (by rfl)
    (by norm_num [four_component_total, total_price])
  exact h.2.2.1 (by decide)

/-- A websocket protocol command relevant to the schedule rewrite routines:
`SET;set_<id>;<value>` or the final `SAVE;1`. -/
inductive Command
  | set (id : String) (value : Nat)
  | save
deriving Repr, DecidableEq

/-- Embedding of `set_tap_water_schedule_from_best_spot_prices`
(websocket_client.rs:400-509), reduced to the command sequence it sends.
`slot_ids` are the ids of the parsed `Klokprogramma > Warmwater > Week`
slot items, `spot_prices_nonempty` embeds `!best_spot_prices.is_empty()`,
and `from_hour`/`from_minute` (resp. `till_hour`/`till_minute`) are the
clock components, in the heat pump's time zone, of the first spot price's
`from` (resp. the last spot price's `till`). -/
def set_tap_water_schedule_from_best_spot_prices (slot_ids : List String)
    (spot_prices_nonempty : Bool)
    (from_hour from_minute till_hour till_minute : Nat) : List Command :=
  (slot_ids.map fun id => Command.set id 0)
    ++ (if spot_prices_nonempty ∧ 1 < slot_ids.length then
          if from_hour > till_hour then
            [Command.set (slot_ids.head?.getD "")
              (60 * till_hour + till_minute + 65536 * (60 * from_hour + from_minute))]
          else
            (if from_hour > 0 then
              [Command.set (slot_ids.head?.getD "") (65536 * (60 * from_hour + from_minute))]
             else [])
            ++ (if till_hour > 0 then
              [Command.set (slot_ids.getLast?.getD "") (60 * till_hour + till_minute)]
               else [])
        else [])
    ++ [Command.save]

/-- Embedding of `set_heating_schedule_from_worst_spot_prices`
(websocket_client.rs:511-622), reduced to the command sequence it sends
for the `Klokprogramma > Verwarmen > Week` slots. -/
def set_heating_schedule_from_worst_spot_prices (slot_ids : List String)
    (spot_prices_nonempty : Bool)
    (from_hour from_minute till_hour till_minute : Nat) : List Command :=
  (slot_ids.map fun id => Command.set id 0)
    ++ (if spot_prices_nonempty ∧ 1 < slot_ids.length then
          if from_hour > till_hour then
            (if from_hour > 0 then
              [Command.set (slot_ids.head?.getD "") (60 * from_hour + from_minute)]
             else [])
            ++ (if till_hour > 0 then
              [Command.set (slot_ids.getLast?.getD "") (65536 * (60 * till_hour + till_minute))]
               else [])
          else
            [Command.set (slot_ids.head?.getD "")
              (60 * from_hour + from_minute + 65536 * (60 * till_hour + till_minute))]
        else [])
    ++ [Command.save]

/-- Effect of one command on the device's per-slot packed values
(a `SET` overwrites one slot's value, `SAVE` commits without changing it). -/
def apply_command (st : String → Nat) : Command → (String → Nat)
  | Command.set id v => Function.update st id v
  | Command.save => st

/-- Device slot values after a command sequence runs in order. -/
def apply_commands (cmds : List Command) (st : String → Nat) : String → Nat :=
  cmds.foldl apply_command st

theorem apply_commands_append (l₁ l₂ : List Command) (st : String → Nat) :
    apply_commands (l₁ ++ l₂) st = apply_commands l₂ (apply_commands l₁ st) :=
  List.foldl_append apply_command st l₁ l₂

theorem apply_commands_reset (slot_ids : List String) (st : String → Nat) (id : String) :
    apply_commands (slot_ids.map fun i => Command.set i 0) st id
      = if id ∈ slot_ids then 0 else st id := by
  induction slot_ids generalizing st with
  | nil => simp [apply_commands]
  | cons a rest ih =>
    rw [List.map_cons,
      show apply_commands (Command.set a 0 :: rest.map fun i => Command.set i 0) st
        = apply_commands (rest.map fun i => Command.set i 0)
            (apply_command st (Command.set a 0)) from rfl,
      ih]
    by_cases hmem : id ∈ rest
    · simp [hmem]
    · by_cases ha : id = a <;>
        simp [hmem, ha, apply_command, Function.update_apply]

theorem head_ne_getLast_of_nodup (l : List String) (fid lid : String)
    (hnd : l.Nodup) (hlen : 1 < l.length)
    (hhead : l.head? = some fid) (hlast : l.getLast? = some lid) : fid ≠ lid := by
  cases l with
  | nil => simp at hhead
  | cons a rest =>
    cases rest with
    | nil => simp at hlen
    | cons b rest₂ =>
      have hfid : fid = a := by simpa using hhead.symm
      have hlid : lid ∈ b :: rest₂ := by
        have h := List.mem_of_mem_getLast? (l := b :: rest₂) (a := lid) ?_
        · exact h
        · rw [List.getLast?_cons_cons] at hlast
          exact hlast
      have hnot : a ∉ b :: rest₂ := (List.nodup_cons.mp hnd).1
      intro h
      rw [hfid] at h
      rw [← h] at hlid
      exact hnot hlid

theorem apply_commands_cons (c : Command) (cs : List Command) (st : String → Nat) :
    apply_commands (c :: cs) st = apply_commands cs (apply_command st c) := rfl

theorem apply_commands_nil (st : String → Nat) : apply_commands [] st = st := rfl

/-- Claim C2 (amended): after a tap-water schedule rewrite with a non-empty
window and at least two distinct slots, every slot other than the first and
the last holds the zero encoding; the wrapping branch is taken exactly when
`from_hour > till_hour` (not when `from_minutes > till_minutes`) and then
the first slot holds `till_minutes + 65536 * from_minutes` while the last
stays zero; otherwise the first slot holds `65536 * from_minutes` exactly
when `from_hour > 0` (else zero) and the last slot holds `till_minutes`
exactly when `till_hour > 0` (else zero). -/
theorem set_tap_water_schedule_final_values (slot_ids : List String)
    (st : String → Nat) (fh fm th tm : Nat) (fid lid : String)
    (hnd : slot_ids.Nodup) (hlen : 1 < slot_ids.length)
    (hhead : slot_ids.head? = some fid) (hlast : slot_ids.getLast? = some lid) :
    apply_commands
        (set_tap_water_schedule_from_best_spot_prices slot_ids true fh fm th tm) st fid
      = (if fh > th then 60 * th + tm + 65536 * (60 * fh + fm)
         else if fh > 0 then 65536 * (60 * fh + fm) else 0)
  ∧ apply_commands
        (set_tap_water_schedule_from_best_spot_prices slot_ids true fh fm th tm) st lid
      = (if fh > th then 0 else if th > 0 then 60 * th + tm else 0)
  ∧ (∀ id ∈ slot_ids, id ≠ fid → id ≠ lid →
      apply_commands
        (set_tap_water_schedule_from_best_spot_prices slot_ids true fh fm th tm) st id = 0) := by
  have hne : fid ≠ lid := head_ne_getLast_of_nodup slot_ids fid lid hnd hlen hhead hlast
  have hfmem : fid ∈ slot_ids := List.mem_of_mem_head? hhead
  have hlmem : lid ∈ slot_ids := List.mem_of_mem_getLast? hlast
  unfold set_tap_water_schedule_from_best_spot_prices
  simp only [hhead, hlast, Option.getD_some]
  rw [if_pos (show True ∧ 1 < slot_ids.length from ⟨trivial, hlen⟩)]
  rw [apply_commands_append, apply_commands_append]
  refine ⟨?_, ?_, ?_⟩
  · by_cases hw : fh > th <;> by_cases h2 : fh > 0 <;> by_cases h3 : th > 0 <;>
      simp [hw, h2, h3, apply_commands_cons, apply_commands_nil, apply_command,
        Function.update_apply, hne, Ne.symm hne, apply_commands_reset, hfmem]
  · by_cases hw : fh > th <;> by_cases h2 : fh > 0 <;> by_cases h3 : th > 0 <;>
      simp [hw, h2, h3, apply_commands_cons, apply_commands_nil, apply_command,
        Function.update_apply, hne, Ne.symm hne, apply_commands_reset, hlmem]
  · intro id hid hfne hlne
    by_cases hw : fh > th <;> by_cases h2 : fh > 0 <;> by_cases h3 : th > 0 <;>
      simp [hw, h2, h3, apply_commands_cons, apply_commands_nil, apply_command,
        Function.update_apply, hfne, hlne, apply_commands_reset, hid]

theorem set_tap_water_schedule_final_values_witness :
    apply_commands
        (set_tap_water_schedule_from_best_spot_prices ["a", "b"] true 2 30 5 0)
        (fun _ => 7) "a" = 9830400
  ∧ apply_commands
        (set_tap_water_schedule_from_best_spot_prices ["a", "b"] true 2 30 5 0)
        (fun _ => 7) "b" = 300 := by
  have h := set_tap_water_schedule_final_values ["a", "b"] (fun _ => 7) 2 30 5 0 "a" "b"
    (by decide) (by decide) rfl rfl
  refine ⟨?_, ?_⟩
  · rw [h.1]; decide
  · rw [h.2.1]; decide

/-- The frozen claim C2 is false on the code: with `from = 10:30` and
`till = 10:15` we have `from_minutes = 630 > till_minutes = 615`, yet the
code compares hours only (`10 > 10` fails) and takes the non-wrapping
branch, setting the first slot to `65536 * 630 = 41287680` and the last to
`615` instead of the claimed single wrapped value `615 + 65536 * 630`. -/
theorem set_tap_water_schedule_wrap_condition_counterexample :
    60 * 10 + 30 > 60 * 10 + 15
  ∧ apply_commands
        (set_tap_water_schedule_from_best_spot_prices ["a", "b"] true 10 30 10 15)
        (fun _ => 99) "a" = 41287680
  ∧ apply_commands
        (set_tap_water_schedule_from_best_spot_prices ["a", "b"] true 10 30 10 15)
        (fun _ => 99) "b" = 615
  ∧ ¬(apply_commands
        (set_tap_water_schedule_from_best_spot_prices ["a", "b"] true 10 30 10 15)
        (fun _ => 99) "a" = 615 + 65536 * 630) := by
  refine ⟨by decide, by decide, by decide, by decide⟩

/-- Claim C3 (amended): the heating-block rewrite does not reuse the
tap-water packing; its per-slot values are: for `from_hour ≤ till_hour`
the first slot holds `from_minutes + 65536 * till_minutes` (low/high halves
swapped relative to the tap-water wrapping case) and the last slot stays
zero; for `from_hour > till_hour` the first slot holds `from_minutes`
exactly when `from_hour > 0` and the last slot holds
`65536 * till_minutes` exactly when `till_hour > 0`; all other slots hold
the zero encoding. -/
theorem set_heating_schedule_final_values (slot_ids : List String)
    (st : String → Nat) (fh fm th tm : Nat) (fid lid : String)
    (hnd : slot_ids.Nodup) (hlen : 1 < slot_ids.length)
    (hhead : slot_ids.head? = some fid) (hlast : slot_ids.getLast? = some lid) :
    apply_commands
        (set_heating_schedule_from_worst_spot_prices slot_ids true fh fm th tm) st fid
      = (if fh > th then (if fh > 0 then 60 * fh + fm else 0)
         else 60 * fh + fm + 65536 * (60 * th + tm))
  ∧ apply_commands
        (set_heating_schedule_from_worst_spot_prices slot_ids true fh fm th tm) st lid
      = (if fh > th then (if th > 0 then 65536 * (60 * th + tm) else 0) else 0)
  ∧ (∀ id ∈ slot_ids, id ≠ fid → id ≠ lid →
      apply_commands
        (set_heating_schedule_from_worst_spot_prices slot_ids true fh fm th tm) st id = 0) := by
  have hne : fid ≠ lid := head_ne_getLast_of_nodup slot_ids fid lid hnd hlen hhead hlast
  have hfmem : fid ∈ slot_ids := List.mem_of_mem_head? hhead
  have hlmem : lid ∈ slot_ids := List.mem_of_mem_getLast? hlast
  unfold set_heating_schedule_from_worst_spot_prices
  simp only [hhead, hlast, Option.getD_some]
  rw [if_pos (show True ∧ 1 < slot_ids.length from ⟨trivial, hlen⟩)]
  rw [apply_commands_append, apply_commands_append]
  refine ⟨?_, ?_, ?_⟩
  · by_cases hw : fh > th <;> by_cases h2 : fh > 0 <;> by_cases h3 : th > 0 <;>
      simp [hw, h2, h3, apply_commands_cons, apply_commands_nil, apply_command,
        Function.update_apply, hne, Ne.symm hne, apply_commands_reset, hfmem]
  · by_cases hw : fh > th <;> by_cases h2 : fh > 0 <;> by_cases h3 : th > 0 <;>
      simp [hw, h2, h3, apply_commands_cons, apply_commands_nil, apply_command,
        Function.update_apply, hne, Ne.symm hne, apply_commands_reset, hlmem]
  · intro id hid hfne hlne
    by_cases hw : fh > th <;> by_cases h2 : fh > 0 <;> by_cases h3 : th > 0 <;>
      simp [hw, h2, h3, apply_commands_cons, apply_commands_nil, apply_command,
        Function.update_apply, hfne, hlne, apply_commands_reset, hid]

theorem set_heating_schedule_final_values_witness :
    apply_commands
        (set_heating_schedule_from_worst_spot_prices ["a", "b"] true 22 0 3 0)
        (fun _ => 7) "a" = 1320
  ∧ apply_commands
        (set_heating_schedule_from_worst_spot_prices ["a", "b"] true 22 0 3 0)
        (fun _ => 7) "b" = 11796480 := by
  have h := set_heating_schedule_final_values ["a", "b"] (fun _ => 7) 22 0 3 0 "a" "b"
    (by decide) (by decide) rfl rfl
  refine ⟨?_, ?_⟩
  · rw [h.1]; decide
  · rw [h.2.1]; decide

/-- The frozen claim C3 is false on the code: for the non-wrapping interval
`[00:00, 10:00)` on slots `["a", "b"]` the tap-water rewrite leaves slot
"a" zeroed and sets slot "b" to `600`, while the heating rewrite sets
slot "a" to `65536 * 600 = 39321600` and leaves "b" zeroed — the per-slot
packed values are not the same. -/
theorem heating_equals_tap_water_counterexample :
    apply_commands
        (set_heating_schedule_from_worst_spot_prices ["a", "b"] true 0 0 10 0)
        (fun _ => 99) "a" = 39321600
  ∧ apply_commands
        (set_tap_water_schedule_from_best_spot_prices ["a", "b"] true 0 0 10 0)
        (fun _ => 99) "a" = 0
  ∧ ¬(apply_commands
        (set_heating_schedule_from_worst_spot_prices ["a", "b"] true 0 0 10 0)
        (fun _ => 99) "a"
      = apply_commands
        (set_tap_water_schedule_from_best_spot_prices ["a", "b"] true 0 0 10 0)
        (fun _ => 99) "a") := by
  refine ⟨by decide, by decide, by decide⟩

/-- The frozen claim C4 is false on the code: the tap-water encoder at
`[00:00, 10:00)` on a 2-slot schedule leaves slot 1 at `0` and sets slot 2
to `600`, not slot 1 to `39321600` and slot 2 to `0`; and at the wrapping
interval `[22:00, 03:00)` the first slot receives
`60*3 + 65536*(60*22) = 86507700`, not the claimed constant `86441880`
(which `65536×(22×60) + 3×60` does not even equal). -/
theorem schedule_encoding_constants_counterexample :
    ¬(apply_commands
        (set_tap_water_schedule_from_best_spot_prices ["a", "b"] true 0 0 10 0)
        (fun _ => 99) "a" = 39321600)
  ∧ ¬(apply_commands
        (set_tap_water_schedule_from_best_spot_prices ["a", "b"] true 22 0 3 0)
        (fun _ => 99) "a" = 86441880)
  ∧ ¬(65536 * (22 * 60) + 3 * 60 = 86441880) := by
  refine ⟨by decide, by decide, by decide⟩

/-- Claim C4 (amended): on a 2-slot tap-water schedule the interval
`[00:00, 10:00)` yields slot-1 value `0` and slot-2 value `600`; the
wrapping interval `[22:00, 03:00)` yields the single combined slot-1 value
`65536×(22×60) + 3×60 = 86507700` with slot 2 zeroed.  (The claim's slot-1
value `65536×600 = 39321600` for `[00:00, 10:00)` is what the
heating-block encoder produces.) -/
theorem schedule_encoding_constants :
    apply_commands
        (set_tap_water_schedule_from_best_spot_prices ["a", "b"] true 0 0 10 0)
        (fun _ => 99) "a" = 0
  ∧ apply_commands
        (set_tap_water_schedule_from_best_spot_prices ["a", "b"] true 0 0 10 0)
        (fun _ => 99) "b" = 600
  ∧ apply_commands
        (set_tap_water_schedule_from_best_spot_prices ["a", "b"] true 22 0 3 0)
        (fun _ => 99) "a" = 86507700
  ∧ apply_commands
        (set_tap_water_schedule_from_best_spot_prices ["a", "b"] true 22 0 3 0)
        (fun _ => 99) "b" = 0
  ∧ 65536 * (22 * 60) + 3 * 60 = 86507700
  ∧ apply_commands
        (set_heating_schedule_from_worst_spot_prices ["a", "b"] true 0 0 10 0)
        (fun _ => 99) "a" = 39321600 := by
  refine ⟨by decide, by decide, by decide, by decide, by decide, by decide⟩

/-- Embedding of `add_jitter_to_spot_prices` (websocket_client.rs:624-644).
The `rand::thread_rng().gen_range(0..2 * jitter_max_minutes)` draw is the
explicit parameter `draw`; its range contract
`0 ≤ draw < 2 * jitter_max_minutes` is a hypothesis of the theorems below.
`Duration::minutes` adds `60 * shift` seconds to each timestamp. -/
def add_jitter_to_spot_prices (jitter_max_minutes draw : Int)
    (spot_prices : List SpotPrice) : List SpotPrice :=
  if spot_prices.isEmpty ∨ jitter_max_minutes = 0 then spot_prices
  else
    let shift_minutes := draw - jitter_max_minutes
    spot_prices.map fun sp =>
      { sp with fromTime := sp.fromTime + 60 * shift_minutes,
                till := sp.till + 60 * shift_minutes }

/-- Per-entry durations of a spot-price window, in seconds. -/
def durations (spot_prices : List SpotPrice) : List Int :=
  spot_prices.map fun sp => sp.till - sp.fromTime

/-- Gaps between consecutive entries of a spot-price window, in seconds. -/
def gaps : List SpotPrice → List Int
  | [] => []
  | [_] => []
  | a :: b :: rest => (b.fromTime - a.till) :: gaps (b :: rest)

theorem durations_map_shift (spot_prices : List SpotPrice) (s : Int) :
    durations (spot_prices.map fun sp =>
        { sp with fromTime := sp.fromTime + 60 * s, till := sp.till + 60 * s })
      = durations spot_prices := by
  induction spot_prices with
  | nil => rfl
  | cons a rest ih =>
    simp only [List.map_cons, durations, List.cons.injEq] at *
    exact ⟨by ring, ih⟩

theorem gaps_map_shift (spot_prices : List SpotPrice) (s : Int) :
    gaps (spot_prices.map fun sp =>
        { sp with fromTime := sp.fromTime + 60 * s, till := sp.till + 60 * s })
      = gaps spot_prices := by
  induction spot_prices with
  | nil => rfl
  | cons a rest ih =>
    cases rest with
    | nil => rfl
    | cons b rest₂ =>
      simp only [List.map_cons, gaps, List.cons.injEq] at *
      exact ⟨by ring, ih⟩

/-- Claim C7: with a zero jitter bound or an empty window
`add_jitter_to_spot_prices` is the identity; otherwise a single shared
shift `draw − bound ∈ [−bound, bound)` (in minutes) moves every entry's
`from` and `till`, so per-entry durations and inter-entry gaps are
preserved. -/
theorem add_jitter_shift_characterization (jitter_max_minutes draw : Int)
    (spot_prices : List SpotPrice) :
    (jitter_max_minutes = 0 →
      add_jitter_to_spot_prices jitter_max_minutes draw spot_prices = spot_prices)
  ∧ (spot_prices = [] →
      add_jitter_to_spot_prices jitter_max_minutes draw spot_prices = spot_prices)
  ∧ (0 ≤ draw → draw < 2 * jitter_max_minutes →
      ∃ shift : Int, -jitter_max_minutes ≤ shift ∧ shift < jitter_max_minutes
        ∧ add_jitter_to_spot_prices jitter_max_minutes draw spot_prices
            = spot_prices.map (fun sp =>
                { sp with fromTime := sp.fromTime + 60 * shift,
                          till := sp.till + 60 * shift })
        ∧ durations (add_jitter_to_spot_prices jitter_max_minutes draw spot_prices)
            = durations spot_prices
        ∧ gaps (add_jitter_to_spot_prices jitter_max_minutes draw spot_prices)
            = gaps spot_prices) := by
  refine ⟨fun h0 => ?_, fun hemp => ?_, fun hd0 hd2 => ?_⟩
  · unfold add_jitter_to_spot_prices
    rw [if_pos (Or.inr h0)]
  · unfold add_jitter_to_spot_prices
    rw [if_pos (Or.inl (by simp [hemp]))]
  · refine ⟨draw - jitter_max_minutes, by omega, by omega, ?_, ?_, ?_⟩
    all_goals
      cases hsp : spot_prices.isEmpty with
      | true =>
        have hnil : spot_prices = [] := List.isEmpty_iff.mp hsp
        simp [add_jitter_to_spot_prices, hnil]
      | false =>
        have hm : ¬jitter_max_minutes = 0 := by omega
        unfold add_jitter_to_spot_prices
        rw [if_neg (by simp [hsp, hm])]
        try simp [durations_map_shift, gaps_map_shift]

theorem add_jitter_shift_characterization_witness :
    durations (add_jitter_to_spot_prices 15 0 [⟨0, 3600, 1, 0, 0, 0⟩]) = [3600]
  ∧ gaps (add_jitter_to_spot_prices 15 0
      [⟨0, 3600, 1, 0, 0, 0⟩, ⟨7200, 10800, 2, 0, 0, 0⟩]) = [3600]
  ∧ add_jitter_to_spot_prices 0 5 [⟨0, 3600, 1, 0, 0, 0⟩] = [⟨0, 3600, 1, 0, 0, 0⟩] := by
  refine ⟨?_, ?_, ?_⟩
  · obtain ⟨s, _, _, _, hdur, _⟩ :=
      (add_jitter_shift_characterization 15 0 [⟨0, 3600, 1, 0, 0, 0⟩]).2.2
        (by omega) (by omega)
    rw [hdur]; rfl
  · obtain ⟨s, _, _, _, _, hgap⟩ :=
      (add_jitter_shift_characterization 15 0
        [⟨0, 3600, 1, 0, 0, 0⟩, ⟨7200, 10800, 2, 0, 0, 0⟩]).2.2 (by omega) (by omega)
    rw [hgap]; rfl
  · exact (add_jitter_shift_characterization 0 5 [⟨0, 3600, 1, 0, 0, 0⟩]).1 rfl

/-- `MAXIMUM_TAP_WATER_TEMPERATURE` (websocket_client.rs:20). -/
def MAXIMUM_TAP_WATER_TEMPERATURE : Rat := 58

/-- `model::State` as constructed and stored by `plan`
(websocket_client.rs:167-171). -/
structure State where
  desinfection_enabled : Bool
  desinfection_finished_at : Option Int
  planned_spot_prices : Option (List SpotPrice)
deriving Repr, DecidableEq

/-- Inputs of one tap-water planning session: the values `plan` reads
before mutating the device, plus the success outcome of each fallible
external step (socket connect + login, the three device mutations, and the
state-store write). -/
structure PlanEnv where
  now : Int
  prior_state : Option State
  has_state_client : Bool
  best_spot_prices : List SpotPrice
  desinfection_desired : Bool
  desired_tap_water_temperature : Rat
  jitter_max_minutes : Int
  jitter_draw : Int
  connect_and_login_ok : Bool
  set_schedule_ok : Bool
  toggle_ok : Bool
  set_temperature_ok : Bool
  store_ok : Bool

/-- Observable effects of one tap-water planning session: whether the
schedule rewrite completed, whether the disinfection toggle was invoked,
the temperature passed to `set_tap_water_temperature` (if reached), the
`State` successfully written to the store (if any), and overall success. -/
structure PlanTrace where
  schedule_set : Bool
  toggled : Bool
  temperature_set : Option Rat
  stored : Option State
  succeeded : Bool
deriving Repr, DecidableEq

/-- `current_desinfection_enabled` as read by `plan`
(websocket_client.rs:82-85). -/
def current_desinfection_enabled (prior_state : Option State) : Bool :=
  match prior_state with
  | some st => st.desinfection_enabled
  | none => false

/-- `desinfection_finished_at` as read by `plan`, defaulting to
`now - 7 days` (websocket_client.rs:87-93). -/
def prior_desinfection_finished_at (now : Int) (prior_state : Option State) : Int :=
  match prior_state with
  | some st =>
    match st.desinfection_finished_at with
    | some fa => fa
    | none => now - 7 * 86400
  | none => now - 7 * 86400

/-- Embedding of the tap-water session of `plan` (websocket_client.rs:64-176):
read prior state, jitter the selected window, rewrite the schedule, toggle
disinfection when the desired flag differs from the stored flag, set the
temperature, then persist the new state; any failed step aborts the run
before the following steps. -/
def plan (env : PlanEnv) : PlanTrace :=
  let current_enabled := current_desinfection_enabled env.prior_state
  let finished_at := prior_desinfection_finished_at env.now env.prior_state
  if env.best_spot_prices.isEmpty then
    ⟨false, false, none, none, true⟩
  else if !env.connect_and_login_ok then
    ⟨false, false, none, none, false⟩
  else
    let best_spot_prices :=
      add_jitter_to_spot_prices env.jitter_max_minutes env.jitter_draw env.best_spot_prices
    if !env.set_schedule_ok then
      ⟨false, false, none, none, false⟩
    else
      let need_toggle := env.desinfection_desired != current_enabled
      if need_toggle && !env.toggle_ok then
        ⟨true, false, none, none, false⟩
      else
        let desired_tap_water_temperature :=
          if env.desinfection_desired then MAXIMUM_TAP_WATER_TEMPERATURE
          else env.desired_tap_water_temperature
        if !env.set_temperature_ok then
          ⟨true, need_toggle, some desired_tap_water_temperature, none, false⟩
        else
          let new_finished_at :=
            if env.desinfection_desired then
              ((best_spot_prices.getLast?).map SpotPrice.till).getD finished_at
            else finished_at
          if env.has_state_client then
            if !env.store_ok then
              ⟨true, need_toggle, some desired_tap_water_temperature, none, false⟩
            else
              ⟨true, need_toggle, some desired_tap_water_temperature,
                some ⟨env.desinfection_desired, some new_finished_at,
                  some best_spot_prices⟩, true⟩
          else
            ⟨true, need_toggle, some desired_tap_water_temperature, none, true⟩

/-- Claim C6: a new `State` reaches the store only after the schedule
rewrite, any needed disinfection toggle, and the temperature set all
succeeded (so a failed device mutation leaves the stored state unchanged);
and the persisted `desinfection_finished_at` is the jittered window's last
`till` exactly when disinfection is desired, otherwise the value read at
the start of the run. -/
theorem plan_persists_only_after_device_mutations (env : PlanEnv) :
    ((plan env).stored.isSome = true →
        env.connect_and_login_ok = true
      ∧ env.set_schedule_ok = true
      ∧ env.set_temperature_ok = true
      ∧ ((env.desinfection_desired != current_desinfection_enabled env.prior_state) = true →
          env.toggle_ok = true)
      ∧ env.store_ok = true)
  ∧ (∀ s : State, (plan env).stored = some s →
        s.desinfection_enabled = env.desinfection_desired
      ∧ s.planned_spot_prices
          = some (add_jitter_to_spot_prices env.jitter_max_minutes env.jitter_draw
              env.best_spot_prices)
      ∧ s.desinfection_finished_at
          = some (if env.desinfection_desired = true then
                (((add_jitter_to_spot_prices env.jitter_max_minutes env.jitter_draw
                    env.best_spot_prices).getLast?).map SpotPrice.till).getD
                  (prior_desinfection_finished_at env.now env.prior_state)
              else prior_desinfection_finished_at env.now env.prior_state)) := by
  unfold plan
  by_cases h1 : env.best_spot_prices.isEmpty <;>
    by_cases h2 : env.connect_and_login_ok <;>
      by_cases h3 : env.set_schedule_ok <;>
        by_cases h4 : (env.desinfection_desired
            != current_desinfection_enabled env.prior_state) = true <;>
          by_cases h5 : env.toggle_ok <;>
            by_cases h6 : env.set_temperature_ok <;>
              by_cases h7 : env.has_state_client <;>
                by_cases h8 : env.store_ok <;>
                  by_cases h9 : env.desinfection_desired <;>
                    simp_all

theorem plan_persists_only_after_device_mutations_witness :
    (plan ⟨0, none, true, [⟨0, 3600, 1, 0, 0, 0⟩], true, 50, 0, 0,
        true, true, true, true, true⟩).stored
      = some ⟨true, some 3600, some [⟨0, 3600, 1, 0, 0, 0⟩]⟩ := by
  have h := plan_persists_only_after_device_mutations
    ⟨0, none, true, [⟨0, 3600, 1, 0, 0, 0⟩], true, 50, 0, 0,
      true, true, true, true, true⟩
  have hstored : (plan ⟨0, none, true, [⟨0, 3600, 1, 0, 0, 0⟩], true, 50, 0, 0,
      true, true, true, true, true⟩).stored.isSome = true := rfl
  obtain ⟨s, hs⟩ := Option.isSome_iff_exists.mp hstored
  obtain ⟨he, hp, hf⟩ := h.2 s hs
  rw [hs]
  cases s with
  | mk en fin pl =>
    simp only at he hp hf
    rw [he, hp, hf]
    rfl

/-- Claim C10: whenever the run reaches the temperature step, the target
passed to `set_tap_water_temperature` is the constant
`MAXIMUM_TAP_WATER_TEMPERATURE = 58` when disinfection is desired —
independent of the configured temperature — and the configured
`desired_tap_water_temperature` otherwise. -/
theorem plan_temperature_target (env : PlanEnv) :
    ((plan env).temperature_set = none
  ∨ (plan env).temperature_set
      = some (if env.desinfection_desired = true then MAXIMUM_TAP_WATER_TEMPERATURE
              else env.desired_tap_water_temperature))
  ∧ MAXIMUM_TAP_WATER_TEMPERATURE = 58 := by
  constructor
  · unfold plan
    by_cases h1 : env.best_spot_prices.isEmpty <;>
      by_cases h2 : env.connect_and_login_ok <;>
        by_cases h3 : env.set_schedule_ok <;>
          by_cases h4 : (env.desinfection_desired
              != current_desinfection_enabled env.prior_state) = true <;>
            by_cases h5 : env.toggle_ok <;>
              by_cases h6 : env.set_temperature_ok <;>
                by_cases h7 : env.has_state_client <;>
                  by_cases h8 : env.store_ok <;>
                    by_cases h9 : env.desinfection_desired <;>
                      simp_all
  · rfl

/-- One simulated remote-control gesture of the device session. -/
inductive Gesture
  | navigate (path : String)
  | move_right
  | move_left
  | click
deriving Repr, DecidableEq

/-- The fixed gesture path from the home screen to the tap-water setpoint
control (websocket_client.rs:328-349). -/
def temperature_menu_entry : List Gesture :=
  [.navigate "Afstandbediening", .click, .move_right, .move_right, .move_right,
    .click, .move_right, .click, .click]

/-- The apply click and the three clicks back to the home screen, after
the confirm click that follows the pulses (websocket_client.rs:376-384). -/
def temperature_menu_finish : List Gesture := [.click, .click, .click, .click]

/-- Rust `as i64` applied to a finite `f64`: truncation toward zero. -/
def f64_as_i64 (x : Rat) : Int := if 0 ≤ x then ⌊x⌋ else -⌊-x⌋

/-- Embedding of `set_tap_water_temperature` (websocket_client.rs:315-398)
as the gesture sequence issued after the initial setpoint read: `value` is
the current setpoint read from the `Informatie > Temperaturen` screen and
compared against the target; an equal reading produces no gestures. -/
def set_tap_water_temperature (value desired_tap_water_temperature : Rat) : List Gesture :=
  if value ≠ desired_tap_water_temperature then
    temperature_menu_entry
      ++ (if desired_tap_water_temperature - value > 0 then
            List.replicate
                (f64_as_i64 ((desired_tap_water_temperature - value) / (1 / 2))).toNat
                Gesture.move_right
              ++ [Gesture.click]
          else
            List.replicate
                (f64_as_i64 (-1 * (desired_tap_water_temperature - value) / (1 / 2))).toNat
                Gesture.move_left
              ++ [Gesture.click])
      ++ temperature_menu_finish
  else []

/-- Claim C8 (amended): with an equal current reading the routine issues no
further gestures; otherwise it walks the fixed menu path and issues exactly
`⌊|target − current| / 0.5⌋` directional pulses — truncation, not the
ceiling the claim states — `move_right` when raising and `move_left` when
lowering, followed by one confirm click and the apply/home clicks. -/
theorem set_tap_water_temperature_pulse_count (value desired : Rat) :
    (value = desired → set_tap_water_temperature value desired = [])
  ∧ (value ≠ desired →
      set_tap_water_temperature value desired
        = temperature_menu_entry
            ++ List.replicate (⌊|desired - value| / (1 / 2)⌋).toNat
                (if value < desired then Gesture.move_right else Gesture.move_left)
            ++ Gesture.click :: temperature_menu_finish) := by
  constructor
  · intro h
    simp [set_tap_water_temperature, h]
  · intro h
    unfold set_tap_water_temperature
    rw [if_pos h]
    by_cases hd : desired - value > 0
    · have habs : |desired - value| = desired - value := abs_of_pos hd
      have hvlt : value < desired := by linarith
      have hnn : 0 ≤ (desired - value) / (1 / 2) := by positivity
      rw [if_pos hd, habs, if_pos hvlt]
      simp only [f64_as_i64, List.append_assoc, List.singleton_append, List.append_cancel_left_eq]
      rw [if_pos hnn]
    · have hne : desired - value ≠ 0 := sub_ne_zero.mpr (Ne.symm h)
      have hlt : desired - value < 0 := lt_of_le_of_ne (not_lt.mp hd) hne
      have habs : |desired - value| = -(desired - value) := abs_of_neg hlt
      have hvge : ¬value < desired := by
        intro hcon
        exact absurd (by linarith : (0 : Rat) < desired - value) (not_lt.mpr (le_of_lt hlt))
      have hpos : (0 : Rat) < -1 * (desired - value) := by linarith
      have hnn : 0 ≤ -1 * (desired - value) / (1 / 2) :=
        le_of_lt (div_pos hpos (by norm_num))
      rw [if_neg hd, habs, if_neg hvge]
      have harg : -1 * (desired - value) = -(desired - value) := by ring
      rw [harg] at hnn ⊢
      simp only [f64_as_i64, List.append_assoc, List.singleton_append, List.append_cancel_left_eq]
      rw [if_pos hnn]

theorem set_tap_water_temperature_pulse_count_witness :
    set_tap_water_temperature 50 51
      = temperature_menu_entry ++ List.replicate 2 Gesture.move_right
          ++ Gesture.click :: temperature_menu_finish := by
  have h := (set_tap_water_temperature_pulse_count 50 51).2 (by norm_num)
  rw [h]
  have habs : |(51 : Rat) - 50| / (1 / 2) = 2 := by norm_num
  rw [habs]
  have hfl : (⌊(2 : Rat)⌋).toNat = 2 := by
    have h2 : ⌊(2 : Rat)⌋ = 2 := by norm_num
    rw [h2]
    rfl
  rw [hfl, if_pos (by norm_num : (50 : Rat) < 51)]

/-- The frozen claim C8 is false on the code: raising from `57.0` to `57.7`
the code computes `(0.7 / 0.5) as i64 = 1` pulse (truncation) while
`⌈0.7 / 0.5⌉ = 2`. -/
theorem temperature_pulse_count_counterexample :
    set_tap_water_temperature 57 (577 / 10)
      = temperature_menu_entry ++ List.replicate 1 Gesture.move_right
          ++ Gesture.click :: temperature_menu_finish
  ∧ (⌈((577 / 10 : Rat) - 57) / (1 / 2)⌉ : Int) = 2
  ∧ (⌈((577 / 10 : Rat) - 57) / (1 / 2)⌉ : Int).toNat ≠ 1 := by
  have hceil : (⌈((577 / 10 : Rat) - 57) / (1 / 2)⌉ : Int) = 2 := by
    have harg : ((577 / 10 : Rat) - 57) / (1 / 2) = 7 / 5 := by norm_num
    rw [harg, Int.ceil_eq_iff]
    constructor <;> norm_num
  refine ⟨?_, hceil, ?_⟩
  · unfold set_tap_water_temperature
    rw [if_pos (by norm_num : (57 : Rat) ≠ 577 / 10)]
    have hdiff : (577 / 10 : Rat) - 57 = 7 / 10 := by norm_num
    rw [hdiff, if_pos (by norm_num : (7 / 10 : Rat) > 0)]
    have harg : (7 / 10 : Rat) / (1 / 2) = 7 / 5 := by norm_num
    rw [harg]
    have hv : f64_as_i64 (7 / 5 : Rat) = 1 := by
      unfold f64_as_i64
      rw [if_pos (by norm_num : (0 : Rat) ≤ 7 / 5)]
      norm_num
    rw [hv]
    simp [List.append_assoc]
  · rw [hceil]
    decide

/-- The ASCII apostrophe used by the device's attribute markup. -/
def quoteChar : Char := Char.ofNat 39

/-- Character class `[0-9.]` of the value-capturing group. -/
def isDigitDot (c : Char) : Bool := c.isDigit || c = '.'

/-- Literal fragment `<item id=` plus the opening quote of the extraction
regex of `get_item_from_response`. -/
def lit_item_id : List Char :=
  ['<', 'i', 't', 'e', 'm', ' ', 'i', 'd', '=', quoteChar]

/-- Literal fragment: closing quote then `><name>`. -/
def lit_quote_name : List Char :=
  [quoteChar, '>', '<', 'n', 'a', 'm', 'e', '>']

/-- Literal fragment `</name><value>`. -/
def lit_name_value : List Char :=
  ['<', '/', 'n', 'a', 'm', 'e', '>', '<', 'v', 'a', 'l', 'u', 'e', '>']

/-- Literal fragment `</value></item>`. -/
def lit_value_item : List Char :=
  ['<', '/', 'v', 'a', 'l', 'u', 'e', '>', '<', '/', 'i', 't', 'e', 'm', '>']

/-- Matches a literal regex fragment, returning the rest of the input. -/
def matchLit : List Char → List Char → Option (List Char)
  | [], s => some s
  | _ :: _, [] => none
  | p :: ps, c :: cs => if p = c then matchLit ps cs else none

/-- Matches the interpolated item name the way the regex engine reads it:
the code interpolates the name into the pattern unescaped, so a `'.'` in a
name (e.g. `Gemiddelde temp.`) is the any-character metacharacter; names
are assumed to contain no other regex metacharacter. -/
def matchItemName : List Char → List Char → Option (List Char)
  | [], s => some s
  | _ :: _, [] => none
  | p :: ps, c :: cs => if p = '.' ∨ p = c then matchItemName ps cs else none

/-- First alternative `-?[0-9.]+` of the capture group, with the
leftmost-first, greedy semantics of the `regex` crate: `-?` prefers to
consume a leading minus, and the class run is maximal. -/
def matchNumberBranch : List Char → Option (List Char × List Char)
  | [] => none
  | c :: rest =>
    if c = '-' then
      if rest.takeWhile isDigitDot = [] then none
      else some ('-' :: rest.takeWhile isDigitDot,
        rest.drop (rest.takeWhile isDigitDot).length)
    else
      if (c :: rest).takeWhile isDigitDot = [] then none
      else some ((c :: rest).takeWhile isDigitDot,
        (c :: rest).drop ((c :: rest).takeWhile isDigitDot).length)

/-- The capture group `(-?[0-9.]+|---)`: the second alternative applies
only where the first cannot match at all. -/
def matchGroup (s : List Char) : Option (List Char × List Char) :=
  match matchNumberBranch s with
  | some r => some r
  | none =>
    match s with
    | '-' :: '-' :: '-' :: rest => some (['-', '-', '-'], rest)
    | _ => none

/-- One attempt of the extraction regex
`<item id=Q[^Q]*Q><name>{item}</name><value>(-?[0-9.]+|---)[^<]*</value></item>`
(writing `Q` for the apostrophe) anchored at the start of `s`, returning
the captured group. The `[^Q]*` and `[^<]*` runs cannot cross their
terminators, so the backtracking search is this deterministic scan. -/
def matchPatternAt (item : List Char) (s : List Char) : Option (List Char) := do
  let s₁ ← matchLit lit_item_id s
  let s₂ ← matchLit lit_quote_name (s₁.dropWhile fun c => c != quoteChar)
  let s₃ ← matchItemName item s₂
  let s₄ ← matchLit lit_name_value s₃
  let (g, s₅) ← matchGroup s₄
  let _ ← matchLit lit_value_item (s₅.dropWhile fun c => c != '<')
  pure g

/-- Leftmost match of the extraction regex over the whole response. -/
def find_first_match (item : List Char) : List Char → Option (List Char)
  | [] => matchPatternAt item []
  | c :: rest =>
    match matchPatternAt item (c :: rest) with
    | some g => some g
    | none => find_first_match item rest

/-- Digit run to a natural number (the `str::parse` accumulator). -/
def digits_to_nat (l : List Char) : Nat :=
  l.foldl (fun acc c => 10 * acc + (c.toNat - 48)) 0

/-- Unsigned part of `str::parse::<f64>()` restricted to the characters
`[0-9.]` the capture group can produce: at most one dot and at least one
digit overall (`"1."`, `".5"`, `"3"` parse; `"."`, `""`, `"1.2.3"` do
not); the value is returned exactly, as a rational. -/
def parse_unsigned (t : List Char) : Option Rat :=
  match t.drop (t.takeWhile Char.isDigit).length with
  | [] =>
    if t.takeWhile Char.isDigit = [] then none
    else some ((digits_to_nat (t.takeWhile Char.isDigit) : Nat) : Rat)
  | '.' :: frac =>
    if frac.all Char.isDigit
        && (!(t.takeWhile Char.isDigit).isEmpty || !frac.isEmpty) then
      some (((digits_to_nat (t.takeWhile Char.isDigit) : Nat) : Rat)
        + ((digits_to_nat frac : Nat) : Rat) / (10 ^ frac.length))
    else none
  | _ => none

/-- `str::parse::<f64>()` on the captured text: optional leading minus,
then the unsigned form. -/
def parse_f64 (s : List Char) : Option Rat :=
  match s with
  | '-' :: t => (parse_unsigned t).map fun v => -v
  | t => parse_unsigned t

/-- Embedding of `get_item_from_response` (websocket_client.rs:734-772):
the first match of the extraction regex yields the captured value text; no
match is an error; the sentinel `---` maps to `0.0`; any other captured
text is parsed as `f64`, a parse failure propagating as an error.  (The
source's `matches.len() != 2` and `matches.get(1) == None` arms are
unreachable: the pattern has exactly one capture group and it always
participates in a match.) -/
def get_item_from_response (item : List Char) (response : List Char) : Except String Rat :=
  match find_first_match item response with
  | none => .error ("No match for item " ++ String.mk item)
  | some g =>
    if g = ['-', '-', '-'] then .ok 0
    else
      match parse_f64 g with
      | some v => .ok v
      | none => .error ("invalid float literal " ++ String.mk g)

/-- The constructed form of one `<item .../>` entry of a temperatures
screen, used to state what extraction returns on a well-formed response. -/
def item_entry (id item numtxt unit : List Char) : List Char :=
  lit_item_id ++ id ++ lit_quote_name ++ item ++ lit_name_value
    ++ numtxt ++ unit ++ lit_value_item

theorem matchLit_append (l r : List Char) : matchLit l (l ++ r) = some r := by
  induction l with
  | nil => rfl
  | cons a t ih => simp [matchLit, ih]

theorem matchItemName_append (l r : List Char) : matchItemName l (l ++ r) = some r := by
  induction l with
  | nil => rfl
  | cons a t ih => simp [matchItemName, ih]

theorem dropWhile_to_quote_name (id X : List Char) (hid : quoteChar ∉ id) :
    List.dropWhile (fun c => c != quoteChar) (id ++ (lit_quote_name ++ X))
      = lit_quote_name ++ X := by
  induction id with
  | nil =>
    show List.dropWhile (fun c => c != quoteChar) (quoteChar :: _) = _
    simp [List.dropWhile]
    rfl
  | cons a t ih =>
    have ha : a ≠ quoteChar := by
      intro h
      exact hid (by simp [h])
    rw [List.cons_append, List.dropWhile_cons_of_pos (by simp [ha]),
      ih fun hm => hid (List.mem_cons_of_mem a hm)]

theorem dropWhile_to_value_item (u X : List Char) (hu : ∀ c ∈ u, c ≠ '<') :
    List.dropWhile (fun c => c != '<') (u ++ (lit_value_item ++ X))
      = lit_value_item ++ X := by
  induction u with
  | nil =>
    show List.dropWhile (fun c => c != '<') ('<' :: _) = _
    simp [List.dropWhile]
    rfl
  | cons a t ih =>
    have ha : a ≠ '<' := hu a (by simp)
    rw [List.cons_append, List.dropWhile_cons_of_pos (by simp [ha]),
      ih fun c hc => hu c (List.mem_cons_of_mem a hc)]

theorem takeWhile_append_all (l r : List Char) (p : Char → Bool)
    (hl : ∀ c ∈ l, p c = true) (hr : ∀ c, r.head? = some c → p c = false) :
    (l ++ r).takeWhile p = l := by
  induction l with
  | nil =>
    cases r with
    | nil => rfl
    | cons c t => simp [List.takeWhile, hr c rfl]
  | cons a t ih =>
    rw [List.cons_append, List.takeWhile_cons_of_pos (hl a (by simp)),
      ih fun c hc => hl c (List.mem_cons_of_mem a hc)]

theorem matchNumberBranch_digits (numtxt u : List Char)
    (hne : numtxt ≠ []) (hall : ∀ c ∈ numtxt, isDigitDot c = true)
    (hu : ∀ c, u.head? = some c → isDigitDot c = false) :
    matchNumberBranch (numtxt ++ u) = some (numtxt, u) := by
  obtain ⟨c, t, rfl⟩ := List.exists_cons_of_ne_nil hne
  have hc : isDigitDot c = true := hall c (by simp)
  have hcne : c ≠ '-' := by
    intro h
    rw [h] at hc
    exact absurd hc (by decide)
  have htake : ((c :: t) ++ u).takeWhile isDigitDot = c :: t :=
    takeWhile_append_all (c :: t) u isDigitDot hall hu
  rw [List.cons_append]
  simp only [matchNumberBranch]
  rw [if_neg hcne, ← List.cons_append, htake, if_neg hne]
  rw [List.drop_left (c :: t) u]

theorem matchNumberBranch_neg (ds u : List Char)
    (hne : ds ≠ []) (hall : ∀ c ∈ ds, isDigitDot c = true)
    (hu : ∀ c, u.head? = some c → isDigitDot c = false) :
    matchNumberBranch (('-' :: ds) ++ u) = some ('-' :: ds, u) := by
  have htake : (ds ++ u).takeWhile isDigitDot = ds :=
    takeWhile_append_all ds u isDigitDot hall hu
  rw [List.cons_append]
  simp only [matchNumberBranch, if_true]
  rw [htake, if_neg hne, List.drop_left ds u]

theorem matchGroup_digits (numtxt u : List Char)
    (hnum : (numtxt ≠ [] ∧ ∀ c ∈ numtxt, isDigitDot c = true)
          ∨ (∃ ds, numtxt = '-' :: ds ∧ ds ≠ [] ∧ ∀ c ∈ ds, isDigitDot c = true))
    (hu : ∀ c, u.head? = some c → isDigitDot c = false) :
    matchGroup (numtxt ++ u) = some (numtxt, u) := by
  unfold matchGroup
  rcases hnum with ⟨hne, hall⟩ | ⟨ds, rfl, hne, hall⟩
  · rw [matchNumberBranch_digits numtxt u hne hall hu]
  · rw [matchNumberBranch_neg ds u hne hall hu]

theorem matchGroup_sentinel (u : List Char) :
    matchGroup (['-', '-', '-'] ++ u) = some (['-', '-', '-'], u) := rfl

theorem matchPatternAt_entry (id item numtxt unit suffix : List Char)
    (hid : quoteChar ∉ id)
    (hunit : ∀ c ∈ unit, c ≠ '<')
    (hgroup : matchGroup (numtxt ++ (unit ++ (lit_value_item ++ suffix)))
      = some (numtxt, unit ++ (lit_value_item ++ suffix))) :
    matchPatternAt item (item_entry id item numtxt unit ++ suffix) = some numtxt := by
  unfold matchPatternAt item_entry
  simp only [List.append_assoc, Option.bind_eq_bind]
  rw [matchLit_append]
  simp only [Option.some_bind]
  rw [dropWhile_to_quote_name id _ hid, matchLit_append]
  simp only [Option.some_bind]
  rw [matchItemName_append]
  simp only [Option.some_bind]
  rw [matchLit_append]
  simp only [Option.some_bind]
  rw [hgroup]
  simp only [Option.some_bind]
  rw [dropWhile_to_value_item unit _ hunit, matchLit_append]
  simp only [Option.some_bind, Option.pure_def]

theorem find_first_match_of_match (item s : List Char) (g : List Char)
    (h : matchPatternAt item s = some g) : find_first_match item s = some g := by
  cases s with
  | nil => simp [find_first_match, h]
  | cons c rest => simp [find_first_match, h]

theorem find_first_match_skip (item pre r : List Char)
    (hpre : ∀ c ∈ pre, c ≠ '<') :
    find_first_match item (pre ++ r) = find_first_match item r := by
  induction pre with
  | nil => rfl
  | cons a t ih =>
    have ha : a ≠ '<' := hpre a (by simp)
    have hfail : matchPatternAt item (a :: (t ++ r)) = none := by
      unfold matchPatternAt
      have hlit : matchLit lit_item_id (a :: (t ++ r)) = none := by
        unfold lit_item_id matchLit
        rw [if_neg (Ne.symm ha)]
      rw [hlit]
      rfl
    rw [List.cons_append]
    show (match matchPatternAt item (a :: (t ++ r)) with
      | some g => some g
      | none => find_first_match item (t ++ r)) = find_first_match item r
    rw [hfail]
    exact ih fun c hc => hpre c (List.mem_cons_of_mem a hc)

theorem get_item_of_find (item response g : List Char)
    (h : find_first_match item response = some g) :
    get_item_from_response item response
      = (if g = ['-', '-', '-'] then .ok 0
         else match parse_f64 g with
           | some v => .ok v
           | none => .error ("invalid float literal " ++ String.mk g)) := by
  unfold get_item_from_response
  rw [h]

theorem get_item_of_find_none (item response : List Char)
    (h : find_first_match item response = none) :
    get_item_from_response item response
      = .error ("No match for item " ++ String.mk item) := by
  unfold get_item_from_response
  rw [h]

theorem find_first_match_cons_fail (item : List Char) (a : Char) (rest : List Char)
    (h : matchPatternAt item (a :: rest) = none) :
    find_first_match item (a :: rest) = find_first_match item rest := by
  show (match matchPatternAt item (a :: rest) with
    | some g => some g
    | none => find_first_match item rest) = find_first_match item rest
  rw [h]

theorem matchPatternAt_none_of_lit_none (item s : List Char)
    (h : matchLit lit_item_id s = none) : matchPatternAt item s = none := by
  unfold matchPatternAt
  rw [h]
  rfl

theorem matchLit_item_id_fail_first (a : Char) (s : List Char) (ha : a ≠ '<') :
    matchLit lit_item_id (a :: s) = none := by
  unfold lit_item_id matchLit
  rw [if_neg (Ne.symm ha)]

theorem matchLit_item_id_fail_second (s : List Char) (hs : s.head? ≠ some 'i') :
    matchLit lit_item_id ('<' :: s) = none := by
  cases s with
  | nil => rfl
  | cons b t =>
    have hb : b ≠ 'i' := by
      intro h
      exact hs (by simp [h])
    show matchLit ['i', 't', 'e', 'm', ' ', 'i', 'd', '=', quoteChar] (b :: t) = none
    unfold matchLit
    rw [if_neg (Ne.symm hb)]

/-- Bool check that the two-character entry opening (`<` followed by `i`)
occurs nowhere in a fragment: such text can never start a match of the
extraction regex, whatever follows it in the response. -/
def no_item_start : List Char → Bool
  | [] => true
  | a :: t => !(decide (a = '<' ∧ t.head? = some 'i')) && no_item_start t

theorem find_first_match_skip_no_item_start (item pre r : List Char)
    (hpre : no_item_start pre = true)
    (hbound : pre.getLast? = some '<' → r.head? ≠ some 'i') :
    find_first_match item (pre ++ r) = find_first_match item r := by
  induction pre with
  | nil => rfl
  | cons a t ih =>
    have hsplit : ¬(a = '<' ∧ t.head? = some 'i') ∧ no_item_start t = true := by
      have h := hpre
      simp only [no_item_start, Bool.and_eq_true, Bool.not_eq_true',
        decide_eq_false_iff_not] at h
      exact h
    have hfail : matchPatternAt item (a :: (t ++ r)) = none := by
      apply matchPatternAt_none_of_lit_none
      by_cases ha : a = '<'
      · subst ha
        apply matchLit_item_id_fail_second
        cases t with
        | nil =>
          rw [List.nil_append]
          exact hbound rfl
        | cons b t2 =>
          intro hI
          have hb : b = 'i' := by simpa using hI
          exact hsplit.1 ⟨rfl, by simp [hb]⟩
      · exact matchLit_item_id_fail_first a _ ha
    rw [List.cons_append, find_first_match_cons_fail item a _ hfail]
    apply ih hsplit.2
    intro hlast
    cases t with
    | nil => simp at hlast
    | cons b t2 =>
      apply hbound
      rw [List.getLast?_cons_cons]
      exact hlast

theorem matchItemName_none_extend (item name : List Char)
    (h : matchItemName (item.take name.length) name = none) :
    ∀ X, matchItemName item (name ++ X) = none := by
  induction item generalizing name with
  | nil =>
    exfalso
    simp [matchItemName] at h
  | cons p ps ih =>
    intro X
    cases name with
    | nil =>
      exfalso
      simp [matchItemName] at h
    | cons c cs =>
      rw [List.length_cons, List.take_succ_cons] at h
      by_cases hc : p = '.' ∨ p = c
      · have h2 : matchItemName (ps.take cs.length) cs = none := by
          simp only [matchItemName, if_pos hc] at h
          exact h
        rw [List.cons_append]
        simp only [matchItemName, if_pos hc]
        exact ih cs h2 X
      · rw [List.cons_append]
        simp only [matchItemName, if_neg hc]

theorem matchPatternAt_foreign_entry (item id name num unit r : List Char)
    (hid : quoteChar ∉ id)
    (hmis : matchItemName (item.take name.length) name = none) :
    matchPatternAt item (item_entry id name num unit ++ r) = none := by
  unfold matchPatternAt item_entry
  simp only [List.append_assoc, Option.bind_eq_bind]
  rw [matchLit_append]
  simp only [Option.some_bind]
  rw [dropWhile_to_quote_name id _ hid, matchLit_append]
  simp only [Option.some_bind]
  rw [matchItemName_none_extend item name hmis]
  rfl

theorem find_first_match_skip_item_id_tail (item r : List Char) :
    find_first_match item
        (['i', 't', 'e', 'm', ' ', 'i', 'd', '=', quoteChar] ++ r)
      = find_first_match item r := rfl

theorem find_first_match_skip_quote_name (item r : List Char) :
    find_first_match item (lit_quote_name ++ r) = find_first_match item r := rfl

theorem find_first_match_skip_name_value (item r : List Char) :
    find_first_match item (lit_name_value ++ r) = find_first_match item r := rfl

theorem find_first_match_skip_value_item (item r : List Char) :
    find_first_match item (lit_value_item ++ r) = find_first_match item r := rfl

/-- Skips one complete entry for another field: a name whose first
`item.length` characters do not match the sought item never produces a
match, at its entry start (by the name mismatch) or anywhere inside it. -/
theorem find_first_match_skip_entry (item id name num unit r : List Char)
    (hid_q : quoteChar ∉ id) (hid_lt : ∀ c ∈ id, c ≠ '<')
    (hname : ∀ c ∈ name, c ≠ '<') (hnum : ∀ c ∈ num, c ≠ '<')
    (hunit : ∀ c ∈ unit, c ≠ '<')
    (hmis : matchItemName (item.take name.length) name = none) :
    find_first_match item (item_entry id name num unit ++ r)
      = find_first_match item r := by
  have h0 := matchPatternAt_foreign_entry item id name num unit r hid_q hmis
  have hdec : item_entry id name num unit ++ r
      = '<' :: (['i', 't', 'e', 'm', ' ', 'i', 'd', '=', quoteChar]
          ++ (id ++ (lit_quote_name ++ (name ++ (lit_name_value
          ++ (num ++ (unit ++ (lit_value_item ++ r)))))))) := by
    simp [item_entry, lit_item_id, List.append_assoc]
  rw [hdec] at h0 ⊢
  rw [find_first_match_cons_fail item '<' _ h0,
    find_first_match_skip_item_id_tail,
    find_first_match_skip item id _ hid_lt,
    find_first_match_skip_quote_name,
    find_first_match_skip item name _ hname,
    find_first_match_skip_name_value,
    find_first_match_skip item num _ hnum,
    find_first_match_skip item unit _ hunit,
    find_first_match_skip_value_item]

/-- Skips any run of well-formed entries for other fields. -/
theorem find_first_match_skip_entries (item : List Char)
    (others : List (List Char × List Char × List Char × List Char)) (r : List Char)
    (hothers : ∀ e ∈ others,
        quoteChar ∉ e.1 ∧ (∀ c ∈ e.1, c ≠ '<') ∧ (∀ c ∈ e.2.1, c ≠ '<')
      ∧ (∀ c ∈ e.2.2.1, c ≠ '<') ∧ (∀ c ∈ e.2.2.2, c ≠ '<')
      ∧ matchItemName (item.take e.2.1.length) e.2.1 = none) :
    find_first_match item
        ((others.map fun e => item_entry e.1 e.2.1 e.2.2.1 e.2.2.2).flatten ++ r)
      = find_first_match item r := by
  induction others with
  | nil => rfl
  | cons e rest ih =>
    obtain ⟨h1, h2, h3, h4, h5, h6⟩ := hothers e (by simp)
    rw [List.map_cons, List.flatten_cons, List.append_assoc,
      find_first_match_skip_entry item e.1 e.2.1 e.2.2.1 e.2.2.2 _ h1 h2 h3 h4 h5 h6]
    exact ih fun e2 he2 => hothers e2 (by simp [he2])

/-- Claim C9: `get_item_from_response` returns the numeric value following
the named field with the trailing unit suffix stripped, stated over any
well-formed response screen: leading markup free of the entry-opening
sequence `<i` (e.g. `<Content>`), then any run of entries for other field
names, then the sought entry — captured numeric text followed by a unit
that starts outside the `[0-9.]` class and contains no `<` — then
arbitrary trailing text; the sentinel `---` yields exactly `0.0`; and when
the pattern does not match the response the result is the `No match`
error, never zero. -/
theorem get_item_from_response_extracts
    (item pre0 id numtxt unit suffix : List Char)
    (others : List (List Char × List Char × List Char × List Char)) (v : Rat)
    (hpre0 : no_item_start pre0 = true)
    (hothers : ∀ e ∈ others,
        quoteChar ∉ e.1 ∧ (∀ c ∈ e.1, c ≠ '<') ∧ (∀ c ∈ e.2.1, c ≠ '<')
      ∧ (∀ c ∈ e.2.2.1, c ≠ '<') ∧ (∀ c ∈ e.2.2.2, c ≠ '<')
      ∧ matchItemName (item.take e.2.1.length) e.2.1 = none)
    (hid : quoteChar ∉ id)
    (hunit_lt : ∀ c ∈ unit, c ≠ '<')
    (hunit_hd : ∀ c, unit.head? = some c → isDigitDot c = false)
    (hnum : (numtxt ≠ [] ∧ ∀ c ∈ numtxt, isDigitDot c = true)
          ∨ (∃ ds, numtxt = '-' :: ds ∧ ds ≠ [] ∧ ∀ c ∈ ds, isDigitDot c = true))
    (hparse : parse_f64 numtxt = some v) :
    get_item_from_response item
        (pre0 ++ ((others.map fun e => item_entry e.1 e.2.1 e.2.2.1 e.2.2.2).flatten
          ++ (item_entry id item numtxt unit ++ suffix))) = .ok v
  ∧ get_item_from_response item
        (pre0 ++ ((others.map fun e => item_entry e.1 e.2.1 e.2.2.1 e.2.2.2).flatten
          ++ (item_entry id item ['-', '-', '-'] unit ++ suffix))) = .ok 0
  ∧ (∀ response, find_first_match item response = none →
      get_item_from_response item response
        = .error ("No match for item " ++ String.mk item)) := by
  have hu : ∀ c, (unit ++ (lit_value_item ++ suffix)).head? = some c →
      isDigitDot c = false := by
    intro c hc
    cases unit with
    | nil =>
      rw [List.nil_append] at hc
      have hlt : c = '<' := by
        have h2 : ('<' :: (['/', 'v', 'a', 'l', 'u', 'e', '>', '<', '/', 'i', 't',
            'e', 'm', '>'] ++ suffix)).head? = some c := hc
        simpa using h2.symm
      rw [hlt]
      decide
    | cons x t =>
      have hx : x = c := by simpa using hc
      rw [← hx]
      exact hunit_hd x rfl
  have hhead : ∀ nt : List Char,
      ((others.map fun e => item_entry e.1 e.2.1 e.2.2.1 e.2.2.2).flatten
        ++ (item_entry id item nt unit ++ suffix)).head? ≠ some 'i' := by
    intro nt
    have hh : ((others.map fun e => item_entry e.1 e.2.1 e.2.2.1 e.2.2.2).flatten
        ++ (item_entry id item nt unit ++ suffix)).head? = some '<' := by
      cases others with
      | nil => rfl
      | cons e rest => rfl
    rw [hh]
    simp
  refine ⟨?_, ?_, ?_⟩
  · have hgroup := matchGroup_digits numtxt (unit ++ (lit_value_item ++ suffix)) hnum hu
    have hmatch := matchPatternAt_entry id item numtxt unit suffix hid hunit_lt hgroup
    have hfind : find_first_match item
        (pre0 ++ ((others.map fun e => item_entry e.1 e.2.1 e.2.2.1 e.2.2.2).flatten
          ++ (item_entry id item numtxt unit ++ suffix))) = some numtxt := by
      rw [find_first_match_skip_no_item_start item pre0 _ hpre0
          (fun _ => hhead numtxt),
        find_first_match_skip_entries item others _ hothers]
      exact find_first_match_of_match item _ numtxt hmatch
    have hns : numtxt ≠ ['-', '-', '-'] := by
      rcases hnum with ⟨hne, hall⟩ | ⟨ds, rfl, hne, hall⟩
      · intro h
        have hmem := hall '-' (by rw [h]; simp)
        exact absurd hmem (by decide)
      · intro h
        have hds : ds = ['-', '-'] := by
          have h2 := List.cons.inj h
          exact h2.2
        have hmem := hall '-' (by rw [hds]; simp)
        exact absurd hmem (by decide)
    rw [get_item_of_find _ _ _ hfind, if_neg hns, hparse]
  · have hgroup := matchGroup_sentinel (unit ++ (lit_value_item ++ suffix))
    have hmatch := matchPatternAt_entry id item ['-', '-', '-'] unit suffix
      hid hunit_lt hgroup
    have hfind : find_first_match item
        (pre0 ++ ((others.map fun e => item_entry e.1 e.2.1 e.2.2.1 e.2.2.2).flatten
          ++ (item_entry id item ['-', '-', '-'] unit ++ suffix)))
            = some ['-', '-', '-'] := by
      rw [find_first_match_skip_no_item_start item pre0 _ hpre0
          (fun _ => hhead ['-', '-', '-']),
        find_first_match_skip_entries item others _ hothers]
      exact find_first_match_of_match item _ ['-', '-', '-'] hmatch
    rw [get_item_of_find _ _ _ hfind, if_pos rfl]
  · intro response h
    exact get_item_of_find_none item response h

theorem get_item_from_response_extracts_witness :
    get_item_from_response "Tapwater ingesteld".data
        ("<Content>".data
          ++ (([("0x4816ac".data, "Aanvoer".data, "22.0".data, "°C".data),
               ("0x44fdcc".data, "Retour".data, "22.0".data, "°C".data),
               ("0x4807dc".data, "Retour berekend".data, "23.0".data, "°C".data),
               ("0x45e1bc".data, "Heetgas".data, "38.0".data, "°C".data),
               ("0x448894".data, "Buitentemperatuur".data, "11.6".data, "°C".data),
               ("0x48047c".data, "Gemiddelde temp.".data, "13.1".data, "°C".data),
               ("0x457724".data, "Tapwater gemeten".data, "54.2".data, "°C".data)].map
                fun e => item_entry e.1 e.2.1 e.2.2.1 e.2.2.2).flatten
            ++ (item_entry "0x45e97c".data "Tapwater ingesteld".data
                  "57.0".data "°C".data
              ++ (([("0x45a41c".data, "Bron-in".data, "10.5".data, "°C".data),
                   ("0x480204".data, "Bron-uit".data, "10.3".data, "°C".data),
                   ("0x45a514".data, "Zonnecollector".data, "5.0".data, "°C".data),
                   ("0x461ecc".data, "Zonneboiler".data, "150.0".data, "°C".data),
                   ("0x43e60c".data, "Oververhitting".data, "4.8".data, " K".data)].map
                    fun e => item_entry e.1 e.2.1 e.2.2.1 e.2.2.2).flatten
                ++ "<name>Temperaturen</name></Content>".data))))
      = .ok 57
  ∧ get_item_from_response "Tapwater ingesteld".data
        ("<Content>".data
          ++ (([("0x4816ac".data, "Aanvoer".data, "22.0".data, "°C".data),
               ("0x44fdcc".data, "Retour".data, "22.0".data, "°C".data),
               ("0x4807dc".data, "Retour berekend".data, "23.0".data, "°C".data),
               ("0x45e1bc".data, "Heetgas".data, "38.0".data, "°C".data),
               ("0x448894".data, "Buitentemperatuur".data, "11.6".data, "°C".data),
               ("0x48047c".data, "Gemiddelde temp.".data, "13.1".data, "°C".data),
               ("0x457724".data, "Tapwater gemeten".data, "54.2".data, "°C".data)].map
                fun e => item_entry e.1 e.2.1 e.2.2.1 e.2.2.2).flatten
            ++ (item_entry "0x45e97c".data "Tapwater ingesteld".data
                  ['-', '-', '-'] "°C".data
              ++ (([("0x45a41c".data, "Bron-in".data, "10.5".data, "°C".data),
                   ("0x480204".data, "Bron-uit".data, "10.3".data, "°C".data),
                   ("0x45a514".data, "Zonnecollector".data, "5.0".data, "°C".data),
                   ("0x461ecc".data, "Zonneboiler".data, "150.0".data, "°C".data),
                   ("0x43e60c".data, "Oververhitting".data, "4.8".data, " K".data)].map
                    fun e => item_entry e.1 e.2.1 e.2.2.1 e.2.2.2).flatten
                ++ "<name>Temperaturen</name></Content>".data))))
      = .ok 0
  ∧ get_item_from_response "Tapwater ingesteld".data "no markup here".data
      = .error ("No match for item " ++ String.mk "Tapwater ingesteld".data) := by
  have hparse : parse_f64 "57.0".data = some (57 : Rat) := by
    have h1 : parse_f64 "57.0".data
        = some (((57 : Nat) : Rat) + ((0 : Nat) : Rat) / 10 ^ 1) := rfl
    rw [h1]
    norm_num
  have hunit_hd : ∀ c, "°C".data.head? = some c → isDigitDot c = false := by
    intro c hc
    have hx : c = '°' := by simpa using hc.symm
    rw [hx]
    decide
  have h := get_item_from_response_extracts "Tapwater ingesteld".data
    "<Content>".data "0x45e97c".data "57.0".data "°C".data
    (([("0x45a41c".data, "Bron-in".data, "10.5".data, "°C".data),
       ("0x480204".data, "Bron-uit".data, "10.3".data, "°C".data),
       ("0x45a514".data, "Zonnecollector".data, "5.0".data, "°C".data),
       ("0x461ecc".data, "Zonneboiler".data, "150.0".data, "°C".data),
       ("0x43e60c".data, "Oververhitting".data, "4.8".data, " K".data)].map
        fun e => item_entry e.1 e.2.1 e.2.2.1 e.2.2.2).flatten
      ++ "<name>Temperaturen</name></Content>".data)
    [("0x4816ac".data, "Aanvoer".data, "22.0".data, "°C".data),
     ("0x44fdcc".data, "Retour".data, "22.0".data, "°C".data),
     ("0x4807dc".data, "Retour berekend".data, "23.0".data, "°C".data),
     ("0x45e1bc".data, "Heetgas".data, "38.0".data, "°C".data),
     ("0x448894".data, "Buitentemperatuur".data, "11.6".data, "°C".data),
     ("0x48047c".data, "Gemiddelde temp.".data, "13.1".data, "°C".data),
     ("0x457724".data, "Tapwater gemeten".data, "54.2".data, "°C".data)]
    57 (by decide) (by decide) (by decide) (by decide) hunit_hd
    (Or.inl ⟨by decide, by decide⟩) hparse
  exact ⟨h.1, h.2.1, h.2.2 "no markup here".data (by rfl)⟩

end AlphaInnotec
